import Mathlib

/-!
# Verification of the tbg task-list viewer

A shallow embedding of the navigation core of the `tbg` terminal task-list
viewer (source: `src/main.rs`, `src/db.rs`), with theorems checking the
natural-language specification against the code.

The embedding follows the source:
* `Task`, `TaskList` mirror the serde structs (`main.rs` lines 37-51);
  `chrono::DateTime<Local>` timestamps are modelled as `Int`.
* `AppState` carries the mutable state of the main loop: the immutable
  task-list collection (`let tasklists = read_db()`), `list_state.selected()`,
  `task_state.selected()`, and the cached `task_len` bound (`main.rs` line 90).
* `drawUpdate` is the state-relevant part of the `terminal.draw` closure
  (`main.rs` lines 117-121): it re-reads the selected list and recomputes
  `task_len`; a `None` selection or out-of-range index models the
  `.expect` / indexing panic as `Option.none`.
* `handleInput` is the `Event::Input` match (`main.rs` lines 129-176);
  `loopStep` is one iteration of the main `loop` (lines 92-179), and
  `runEvents` folds it over an event list, stopping on quit or panic.
* `srcIter` is one iteration of the event-source thread (`main.rs`
  lines 58-77), with `Instant` readings passed in as naturals.
* `read_db` mirrors `read_db` (`main.rs` lines 259-311): the filesystem
  read result and the external serde parse/serialize functions are
  explicit parameters.
-/

namespace Tbg

/-- A task (`main.rs` lines 44-51). Dates are `chrono` timestamps,
modelled as integers. -/
structure Task where
  id : Nat
  name : String
  tags : List String
  start_date : Int
  due_date : Int
deriving Repr, DecidableEq

/-- A named task list (`main.rs` lines 37-42). -/
structure TaskList where
  id : Nat
  name : String
  tasks : List Task
deriving Repr, DecidableEq

/-- `crossterm::event::KeyCode`: the main loop only distinguishes
character keys, so other key codes are collapsed into one constructor. -/
inductive KeyCode where
  | char (c : Char)
  | other
deriving Repr, DecidableEq

/-- `crossterm::event::KeyModifiers` (bitflags SHIFT/CONTROL/ALT). -/
structure KeyModifiers where
  shift : Bool
  control : Bool
  alt : Bool
deriving Repr, DecidableEq

/-- `crossterm::event::KeyEvent`: code plus modifier flags. -/
structure KeyEvent where
  code : KeyCode
  modifiers : KeyModifiers
deriving Repr, DecidableEq

/-- The `Event<I>` enum of `main.rs` lines 32-35, instantiated at
`I = KeyEvent` as in the program. -/
inductive Event where
  | input (e : KeyEvent)
  | tick
deriving Repr, DecidableEq

/-- The state of the main loop (`main.rs` lines 84-90): the task-list
collection (immutable binding `tasklists`), `list_state.selected()`,
`task_state.selected()`, and the cached `task_len` bound. -/
structure AppState where
  tasklists : List TaskList
  list_select : Option Nat
  task_select : Option Nat
  task_len : Nat
deriving Repr, DecidableEq

/-- State initialization (`main.rs` lines 84-90): `list_state` selects 0,
`task_state` selects nothing, and `task_len = tasklists[0].tasks.len() - 1`.
Indexing `tasklists[0]` panics on an empty collection, modelled as `none`. -/
def initState (tasklists : List TaskList) : Option AppState :=
  match tasklists.get? 0 with
  | some tl0 =>
      some { tasklists := tasklists, list_select := some 0,
             task_select := none, task_len := tl0.tasks.length - 1 }
  | none => none

/-- The state-relevant part of the draw closure (`main.rs` lines 117-121):
`selected_list = list_state.selected().expect(..)` and
`task_len = tasklists[selected_list].tasks.len() - 1`. The `.expect` on a
`None` selection and the panic of out-of-range indexing are `none`. -/
def drawUpdate (s : AppState) : Option AppState :=
  match s.list_select with
  | some selected_list =>
      match s.tasklists.get? selected_list with
      | some tl => some { s with task_len := tl.tasks.length - 1 }
      | none => none
  | none => none

/-- The `Event::Input` arm of the main loop (`main.rs` lines 129-176).
Returns the updated state and whether the loop `break`s (the `q` arms).
The dispatch matches on `task_state.selected()` and then on `event.code`
only; modifiers are never inspected, exactly as in the source. -/
def handleInput (list_len : Nat) (s : AppState) (event : KeyEvent) :
    AppState × Bool :=
  match s.task_select with
  | some task_selected =>
      match event.code with
      | .char 'q' => (s, true)
      | .char 'h' => ({ s with task_select := none }, false)
      | .char 'j' =>
          if task_selected ≠ s.task_len then
            ({ s with task_select := some (task_selected + 1) }, false)
          else (s, false)
      | .char 'k' =>
          if task_selected ≠ 0 then
            ({ s with task_select := some (task_selected - 1) }, false)
          else (s, false)
      | _ => (s, false)
  | none =>
      match event.code with
      | .char 'q' => (s, true)
      | .char 'j' =>
          match s.list_select with
          | some selected =>
              if selected ≠ list_len then
                ({ s with list_select := some (selected + 1) }, false)
              else (s, false)
          | none => (s, false)
      | .char 'k' =>
          match s.list_select with
          | some selected =>
              if selected ≠ 0 then
                ({ s with list_select := some (selected - 1) }, false)
              else (s, false)
          | none => (s, false)
      | .char 'l' => ({ s with task_select := some 0 }, false)
      | _ => (s, false)

/-- One iteration of the main loop (`main.rs` lines 92-179): draw (which
recomputes `task_len` from the currently selected list), compute
`list_len = tasklists.len() - 1`, then consume one event. `none` models a
panic inside the draw closure; the `Bool` is the loop `break` flag. -/
def loopStep (s : AppState) (e : Event) : Option (AppState × Bool) :=
  match drawUpdate s with
  | none => none
  | some s' =>
      let list_len := s'.tasklists.length - 1
      match e with
      | .input ev => some (handleInput list_len s' ev)
      | .tick => some (s', false)

/-- Fold `loopStep` over a list of events, stopping when the loop breaks
(`q`) or panics. Mirrors the `loop { .. match rx.recv()? { .. } }` of
`main.rs` consuming a finite prefix of the event stream. -/
def runEvents (s : AppState) : List Event → Option (AppState × Bool)
  | [] => some (s, false)
  | e :: es =>
      match loopStep s e with
      | none => none
      | some (s', true) => some (s', true)
      | some (s', false) => runEvents s' es

/-- Cursor trace: the `(list_state.selected(), task_state.selected())`
pair observed after each key press (stops early on quit or panic). -/
def traceKeys (s : AppState) : List KeyEvent → List (Option Nat × Option Nat)
  | [] => []
  | k :: ks =>
      match loopStep s (.input k) with
      | some (s', false) => (s'.list_select, s'.task_select) :: traceKeys s' ks
      | _ => []

/-- A plain key press without modifiers. -/
def key (c : Char) : KeyEvent :=
  { code := .char c, modifiers := { shift := false, control := false, alt := false } }

/-- A dummy task used to build concrete scenarios. -/
def mkTask (n : Nat) : Task :=
  { id := n, name := "task", tags := [], start_date := 0, due_date := 0 }

/-- The C2 scenario collection: list 0 has 2 tasks, list 1 has 5 tasks. -/
def demoLists : List TaskList :=
  [ { id := 0, name := "A", tasks := [mkTask 0, mkTask 1] },
    { id := 1, name := "B", tasks := [mkTask 0, mkTask 1, mkTask 2, mkTask 3, mkTask 4] } ]

/-- The `j`/`k` navigation keys, used to quantify over sequences of
`j`/`k` presses. -/
inductive JK where
  | j
  | k
deriving Repr, DecidableEq

/-- The key event of a `j`/`k` press. -/
def jkKey : JK → KeyEvent
  | .j => key 'j'
  | .k => key 'k'

/-- The event list of a sequence of `j`/`k` presses. -/
def jkEvents (ks : List JK) : List Event :=
  ks.map fun x => Event.input (jkKey x)

/-- The state of the event-source thread (`main.rs` lines 58-77):
`last_tick`, the `Instant` of the last tick reset, as a natural-number
timestamp. -/
structure SrcState where
  last_tick : Nat
deriving Repr, DecidableEq

/-- One iteration of the event-source thread loop (`main.rs` lines 60-76).
Environment inputs model the clock and channel:
* `pollResult`: the key event returned by `event::poll`/`event::read`
  within the timeout, if any (its `tx.send(..).expect(..)` is assumed to
  succeed; a failed key send aborts the thread and is outside this model);
* `t_check`: the `Instant::now()` reading behind the second
  `last_tick.elapsed()` (line 71), so the elapsed time there is
  `t_check - last_tick`;
* `t_reset`: the `Instant::now()` assigned to `last_tick` on line 73;
* `send_ok`: whether `tx.send(Event::Tick)` returns `Ok` (line 72).
Returns the events sent on the channel this iteration, in order, and the
new thread state. -/
def srcIter (tick_rate : Nat) (s : SrcState) (pollResult : Option KeyEvent)
    (t_check t_reset : Nat) (send_ok : Bool) : List Event × SrcState :=
  let sent : List Event :=
    match pollResult with
    | some k => [Event.input k]
    | none => []
  if tick_rate ≤ t_check - s.last_tick then
    if send_ok then (sent ++ [Event.tick], ⟨t_reset⟩)
    else (sent, s)
  else (sent, s)

/-- The filesystem as seen by `read_db`: the content of `./data/db.json`,
or `none` when the file is missing or unreadable. -/
structure FsState where
  file : Option String
deriving Repr, DecidableEq

/-- The built-in default collection (the local `default` of `read_db`,
`main.rs` lines 266-307); `Local::now()` is the parameter `now`. -/
def defaultLists (now : Int) : List TaskList :=
  [ { id := 0, name := "Personal",
      tasks :=
        [ { id := 0, name := "Clean up your room", tags := ["JP"],
            due_date := now, start_date := now },
          { id := 1, name := "Watch ThePrimeagen", tags := ["rust"],
            due_date := now, start_date := now } ] },
    { id := 1, name := "School",
      tasks :=
        [ { id := 0, name := "Math HW", tags := ["MATH"],
            due_date := now, start_date := now },
          { id := 1, name := "Smart Book", tags := ["2070"],
            due_date := now, start_date := now } ] } ]

/-- `read_db` (`main.rs` lines 259-311): read the store file; if it reads
and parses, return the parsed collection; otherwise build the default,
write its serialization to the store path, and return it. The external
serde functions are the parameters `parse` (`serde_json::from_str`, `none`
for a parse error) and `serialize` (`serde_json::to_string`, which cannot
fail on these data). Returns the collection and the resulting file state
(`fs::write` is assumed to succeed; its `.unwrap` panics otherwise). -/
def read_db (parse : String → Option (List TaskList))
    (serialize : List TaskList → String) (now : Int) (fs : FsState) :
    List TaskList × FsState :=
  match fs.file with
  | some db_content =>
      match parse db_content with
      | some parsed => (parsed, fs)
      | none =>
          let d := defaultLists now
          (d, ⟨some (serialize d)⟩)
  | none =>
      let d := defaultLists now
      (d, ⟨some (serialize d)⟩)

/-- A parse function agreeing with `serde_json::from_str::<Vec<TaskList>>`
on the input `"[]"`: the JSON empty array parses to the empty vector. -/
def parseEmptyArray : String → Option (List TaskList) :=
  fun s => if s = "[]" then some [] else none

/-! ## Helper lemmas about the main-loop step -/

/-- The draw closure recomputes `task_len` from the currently selected
list: with `list_state` selecting an in-range index `i`, `drawUpdate`
succeeds and `task_len` becomes `tasks[i].len() - 1`. -/
theorem drawUpdate_eq (s : AppState) (i : Nat) (tl : TaskList)
    (h1 : s.list_select = some i) (h2 : s.tasklists.get? i = some tl) :
    drawUpdate s = some { s with task_len := tl.tasks.length - 1 } := by
  rw [List.get?_eq_getElem?] at h2
  simp [drawUpdate, h1, h2]

/-- An `l` press in ListFocus: `task_state` selects row 0, with no check
of the selected list's task count. -/
theorem loopStep_listFocus_l (s : AppState) (i : Nat) (tl : TaskList)
    (h0 : s.task_select = none) (h1 : s.list_select = some i)
    (h2 : s.tasklists.get? i = some tl) :
    loopStep s (.input (key 'l')) =
      some ({ s with task_len := tl.tasks.length - 1,
                     task_select := some 0 }, false) := by
  simp [loopStep, drawUpdate_eq s i tl h1 h2, handleInput, key, h0]

/-- An `h` press in TaskFocus: `task_state` selects nothing again. -/
theorem loopStep_taskFocus_h (s : AppState) (i t : Nat) (tl : TaskList)
    (h0 : s.task_select = some t) (h1 : s.list_select = some i)
    (h2 : s.tasklists.get? i = some tl) :
    loopStep s (.input (key 'h')) =
      some ({ s with task_len := tl.tasks.length - 1,
                     task_select := none }, false) := by
  simp [loopStep, drawUpdate_eq s i tl h1 h2, handleInput, key, h0]

/-- A `j`/`k` press in ListFocus moves `list_select` by the source's
saturating step against `list_len = tasklists.len() - 1`. -/
theorem loopStep_listFocus_jk (s : AppState) (i : Nat) (tl : TaskList)
    (x : JK) (h0 : s.task_select = none) (h1 : s.list_select = some i)
    (h2 : s.tasklists.get? i = some tl) :
    loopStep s (.input (jkKey x)) =
      some ({ s with task_len := tl.tasks.length - 1,
                     list_select := some (match x with
                       | .j => if i ≠ s.tasklists.length - 1 then i + 1 else i
                       | .k => if i ≠ 0 then i - 1 else i) }, false) := by
  cases x <;>
    simp [loopStep, drawUpdate_eq s i tl h1 h2, handleInput, jkKey, key,
      h0, h1] <;>
    split <;> simp_all

/-- A `j`/`k` press in TaskFocus moves `task_select` by the source's
saturating step against the `task_len` recomputed at this iteration's
draw from the currently selected list. -/
theorem loopStep_taskFocus_jk (s : AppState) (i t : Nat) (tl : TaskList)
    (x : JK) (h0 : s.task_select = some t) (h1 : s.list_select = some i)
    (h2 : s.tasklists.get? i = some tl) :
    loopStep s (.input (jkKey x)) =
      some ({ s with task_len := tl.tasks.length - 1,
                     task_select := some (match x with
                       | .j => if t ≠ tl.tasks.length - 1 then t + 1 else t
                       | .k => if t ≠ 0 then t - 1 else t) }, false) := by
  cases x <;>
    simp [loopStep, drawUpdate_eq s i tl h1 h2, handleInput, jkKey, key,
      h0] <;>
    split <;> simp_all

/-- Running an event list splits over append as long as the first part
neither quits nor panics. -/
theorem runEvents_append (es1 es2 : List Event) :
    ∀ (s s' : AppState), runEvents s es1 = some (s', false) →
      runEvents s (es1 ++ es2) = runEvents s' es2 := by
  induction es1 with
  | nil =>
      intro s s' h
      simp [runEvents] at h
      simp [h]
  | cons e es ih =>
      intro s s' h
      rcases hl : loopStep s e with _ | ⟨s₂, b⟩
      · simp [runEvents, hl] at h
      · cases b
        · rw [List.cons_append, runEvents, hl]
          rw [runEvents, hl] at h
          exact ih s₂ s' h
        · rw [runEvents, hl] at h
          simp at h

/-- Any sequence of `j`/`k` presses from a ListFocus state with an
in-range selection stays in ListFocus, keeps the selection in range, and
leaves the collection unchanged. -/
theorem runJK_listFocus (ks : List JK) :
    ∀ (s : AppState) (i : Nat), s.task_select = none →
      s.list_select = some i → i < s.tasklists.length →
      ∃ s' i', runEvents s (jkEvents ks) = some (s', false) ∧
        s'.tasklists = s.tasklists ∧ s'.task_select = none ∧
        s'.list_select = some i' ∧ i' < s.tasklists.length := by
  induction ks with
  | nil => exact fun s i h0 h1 hi => ⟨s, i, rfl, rfl, h0, h1, hi⟩
  | cons x ks ih =>
      intro s i h0 h1 hi
      have h2 : s.tasklists.get? i = some (s.tasklists.get ⟨i, hi⟩) :=
        List.get?_eq_get hi
      have hstep := loopStep_listFocus_jk s i _ x h0 h1 h2
      set i' := (match x with
        | JK.j => if i ≠ s.tasklists.length - 1 then i + 1 else i
        | JK.k => if i ≠ 0 then i - 1 else i) with hi'
      have hi'lt : i' < s.tasklists.length := by
        cases x <;> simp only [hi'] <;> split <;> omega
      obtain ⟨s', j', hrun, ht, h0', h1', hj'⟩ :=
        ih { s with task_len := ((s.tasklists.get ⟨i, hi⟩).tasks.length - 1),
                    list_select := some i' } i' h0 rfl hi'lt
      refine ⟨s', j', ?_, ht, h0', h1', hj'⟩
      rw [jkEvents, List.map_cons, runEvents, hstep]
      exact hrun

/-- Any sequence of `j`/`k` presses from a TaskFocus state keeps the
list selection fixed, keeps `task_select` within the selected list's
bound, and leaves the collection unchanged. -/
theorem runJK_taskFocus (ks : List JK) :
    ∀ (s : AppState) (i t : Nat) (tl : TaskList), s.task_select = some t →
      s.list_select = some i → s.tasklists.get? i = some tl →
      t ≤ tl.tasks.length - 1 →
      ∃ s' t', runEvents s (jkEvents ks) = some (s', false) ∧
        s'.tasklists = s.tasklists ∧ s'.list_select = some i ∧
        s'.task_select = some t' ∧ t' ≤ tl.tasks.length - 1 := by
  induction ks with
  | nil => exact fun s i t tl h0 h1 h2 ht => ⟨s, t, rfl, rfl, h1, h0, ht⟩
  | cons x ks ih =>
      intro s i t tl h0 h1 h2 ht
      have hstep := loopStep_taskFocus_jk s i t tl x h0 h1 h2
      set t' := (match x with
        | JK.j => if t ≠ tl.tasks.length - 1 then t + 1 else t
        | JK.k => if t ≠ 0 then t - 1 else t) with ht'
      have ht'le : t' ≤ tl.tasks.length - 1 := by
        cases x <;> simp only [ht'] <;> split <;> omega
      obtain ⟨s', u', hrun, htl, h1', h0', hu'⟩ :=
        ih { s with task_len := tl.tasks.length - 1,
                    task_select := some t' } i t' tl rfl h1 h2 ht'le
      refine ⟨s', u', ?_, htl, h1', h0', hu'⟩
      rw [jkEvents, List.map_cons, runEvents, hstep]
      exact hrun

/-! ## The claims -/

/-- C2: with two task lists (2 tasks and 5 tasks), starting from
`(list_index = 0, task_index = none)`, the key sequence
`j, l, j, j, j, j, k, h, k, l, j` produces exactly the cursor sequence
`(1,none), (1,0), (1,1), (1,2), (1,3), (1,4), (1,3), (1,none), (0,none),
(0,0), (0,1)`, with the fifth `j` clamped at `4 = 5 - 1`. -/
theorem c2_scenario_trace :
    (∃ s0, initState demoLists = some s0 ∧
      traceKeys s0
          [key 'j', key 'l', key 'j', key 'j', key 'j', key 'j',
           key 'k', key 'h', key 'k', key 'l', key 'j'] =
        [(some 1, none), (some 1, some 0), (some 1, some 1), (some 1, some 2),
         (some 1, some 3), (some 1, some 4), (some 1, some 3), (some 1, none),
         (some 0, none), (some 0, some 0), (some 0, some 1)]) := by
  refine ⟨_, rfl, ?_⟩
  decide

/-- C4 (counterexample): with the store file containing `"[]"` — which
serde parses as an empty `Vec<TaskList>` — `read_db` returns the parsed
empty collection as-is, so the loaded sequence is not non-empty: the
claim fails at this file content. -/
theorem c4_counterexample :
    ¬ ((read_db parseEmptyArray (fun _ => "") 0 ⟨some "[]"⟩).1 ≠ [] ∧
       ∀ tl ∈ (read_db parseEmptyArray (fun _ => "") 0 ⟨some "[]"⟩).1,
         tl.tasks ≠ []) := by
  decide

/-- C4 (amended): `read_db` returns the parsed content unvalidated
whenever the file reads and parses successfully; the returned collection
is guaranteed non-empty with every `tasks` sequence non-empty only when
the default branch is taken (file missing/unreadable or unparseable). -/
theorem c4_read_db_amended (parse : String → Option (List TaskList))
    (serialize : List TaskList → String) (now : Int) (fs : FsState) :
    (∀ c p, fs.file = some c → parse c = some p →
        (read_db parse serialize now fs).1 = p) ∧
    ((fs.file = none ∨ ∃ c, fs.file = some c ∧ parse c = none) →
        (read_db parse serialize now fs).1 ≠ [] ∧
        ∀ tl ∈ (read_db parse serialize now fs).1, tl.tasks ≠ []) := by
  obtain ⟨file⟩ := fs
  constructor
  · rintro c p rfl hp
    simp [read_db, hp]
  · rintro (h | ⟨c, rfl, hc⟩)
    · subst h
      refine ⟨by simp [read_db, defaultLists], ?_⟩
      intro tl htl
      simp [read_db, defaultLists] at htl
      rcases htl with rfl | rfl <;> simp
    · refine ⟨by simp [read_db, hc, defaultLists], ?_⟩
      intro tl htl
      simp [read_db, hc, defaultLists] at htl
      rcases htl with rfl | rfl <;> simp

/-- C4 (witness for the amended theorem): with a missing file, the default
branch yields a non-empty collection. -/
theorem c4_read_db_amended_witness :
    (read_db (fun _ => none) (fun _ => "") 0 ⟨none⟩).1 ≠ [] :=
  ((c4_read_db_amended (fun _ => none) (fun _ => "") 0 ⟨none⟩).2
    (Or.inl rfl)).1

/-- C8: whenever the store file is missing/unreadable (`fs.file = none`)
or unparseable (`parse content = none`), `read_db` builds the default
collection at the current time, writes its serialization to the store
path, and returns it; the returned value is the same plain list of
`TaskList`s in every failure case — a function of `now` alone — so it
carries no indication of which case occurred and no read or parse error
surfaces to the caller. -/
theorem c8_read_db_default_substitution (parse : String → Option (List TaskList))
    (serialize : List TaskList → String) (now : Int) (fs : FsState)
    (hfail : fs.file = none ∨ ∃ c, fs.file = some c ∧ parse c = none) :
    read_db parse serialize now fs =
      (defaultLists now, ⟨some (serialize (defaultLists now))⟩) := by
  obtain ⟨file⟩ := fs
  rcases hfail with h | ⟨c, hc, hp⟩
  · subst h; rfl
  · cases hc
    simp [read_db, hp]

/-- C8 (witness): a missing file yields the default and its write. -/
theorem c8_read_db_default_substitution_witness :
    read_db (fun _ => none) (fun _ => "x") 0 ⟨none⟩ =
      (defaultLists 0, ⟨some "x"⟩) :=
  c8_read_db_default_substitution (fun _ => none) (fun _ => "x") 0 ⟨none⟩
    (Or.inl rfl)

/-- C5 (counterexample): with `tick_rate = 1`, `last_tick = 0`, a key
event polled within the timeout, and the post-poll check at time 1
(elapsed `1 ≥ tick_rate`), the iteration emits BOTH the key event and a
`Tick`: a Tick is emitted although a key event arrived within the
timeout, so "a Tick is emitted exactly when the poll timeout elapses
with no key event" fails on the code. -/
theorem c5_counterexample :
    Event.input (key 'x') ∈ (srcIter 1 ⟨0⟩ (some (key 'x')) 1 1 true).1 ∧
    Event.tick ∈ (srcIter 1 ⟨0⟩ (some (key 'x')) 1 1 true).1 := by
  decide

/-- C5 (amended): in every iteration the key event polled within the
timeout (if any) is emitted first; a `Tick` is emitted exactly when, at
the post-poll check, the elapsed time since the last tick is at least
`tick_rate` and the channel send succeeds — whether or not a key event
was emitted in the same iteration — and exactly then `last_tick` resets
to the `Instant` read after the send; key events never reset it. -/
theorem c5_tick_emission (tick_rate : Nat) (s : SrcState)
    (pollResult : Option KeyEvent) (t_check t_reset : Nat) (send_ok : Bool) :
    (Event.tick ∈ (srcIter tick_rate s pollResult t_check t_reset send_ok).1 ↔
        tick_rate ≤ t_check - s.last_tick ∧ send_ok = true) ∧
    (∀ k, Event.input k ∈
            (srcIter tick_rate s pollResult t_check t_reset send_ok).1 ↔
          pollResult = some k) ∧
    ((srcIter tick_rate s pollResult t_check t_reset send_ok).2 =
        if tick_rate ≤ t_check - s.last_tick ∧ send_ok = true then
          ⟨t_reset⟩ else s) := by
  by_cases h : tick_rate ≤ t_check - s.last_tick <;>
    cases send_ok <;> cases pollResult <;>
      simp [srcIter, h, eq_comm]

/-- C1: for a non-empty collection of non-empty task lists, after any
sequence of `j`/`k` list-index changes in ListFocus, pressing `l` sets
`task_index` to 0; and on every `j` press in TaskFocus the bound used to
clamp `task_index` is `tasks[list_index].len() - 1` of the currently
selected list, recomputed at that iteration's draw (the cached `task_len`
after the step equals the fresh bound), never a bound from a previously
selected list. -/
theorem c1_fresh_bound_clamp (s : AppState) (i : Nat)
    (hne : s.tasklists ≠ []) (hall : ∀ tl ∈ s.tasklists, tl.tasks ≠ [])
    (h0 : s.task_select = none) (h1 : s.list_select = some i)
    (hi : i < s.tasklists.length) :
    (∀ ks : List JK, ∃ s',
        runEvents s (jkEvents ks ++ [Event.input (key 'l')]) =
          some (s', false) ∧
        s'.task_select = some 0 ∧ s'.tasklists = s.tasklists) ∧
    (∀ (s₁ : AppState) (i₁ t : Nat) (tl : TaskList),
        s₁.task_select = some t → s₁.list_select = some i₁ →
        s₁.tasklists.get? i₁ = some tl → t ≤ tl.tasks.length - 1 →
        ∃ s₂, loopStep s₁ (.input (key 'j')) = some (s₂, false) ∧
          s₂.task_len = tl.tasks.length - 1 ∧
          s₂.task_select = some (min (t + 1) (tl.tasks.length - 1))) := by
  constructor
  · intro ks
    obtain ⟨s', i', hrun, ht, h0', h1', hi'⟩ := runJK_listFocus ks s i h0 h1 hi
    have hi'' : i' < s'.tasklists.length := by rw [ht]; exact hi'
    have h2 : s'.tasklists.get? i' = some (s'.tasklists.get ⟨i', hi''⟩) :=
      List.get?_eq_get hi''
    have hstep := loopStep_listFocus_l s' i' _ h0' h1' h2
    refine ⟨{ s' with
        task_len := (s'.tasklists.get ⟨i', hi''⟩).tasks.length - 1,
        task_select := some 0 }, ?_, rfl, ht⟩
    rw [runEvents_append (jkEvents ks) [Event.input (key 'l')] s s' hrun]
    simp [runEvents, hstep]
  · intro s₁ i₁ t tl h0₁ h1₁ h2₁ htle
    have hmin : (if t ≠ tl.tasks.length - 1 then t + 1 else t) =
        min (t + 1) (tl.tasks.length - 1) := by
      split <;> omega
    refine ⟨{ s₁ with
        task_len := tl.tasks.length - 1,
        task_select := some (min (t + 1) (tl.tasks.length - 1)) },
      ?_, rfl, rfl⟩
    rw [← hmin]
    exact loopStep_taskFocus_jk s₁ i₁ t tl JK.j h0₁ h1₁ h2₁

/-- C1 (witness): at the two-list demo collection, after one `j` press in
ListFocus, an `l` press selects task 0. -/
theorem c1_fresh_bound_clamp_witness :
    ∃ s', runEvents ⟨demoLists, some 0, none, 1⟩
        (jkEvents [JK.j] ++ [Event.input (key 'l')]) = some (s', false) ∧
      s'.task_select = some 0 ∧ s'.tasklists = demoLists :=
  (c1_fresh_bound_clamp ⟨demoLists, some 0, none, 1⟩ 0 (by decide)
      (by decide) rfl rfl (by decide)).1 [JK.j]

/-- C3: for a non-empty collection of non-empty task lists and every
sequence of `j`/`k` presses: in ListFocus, `list_index` stays within
`[0, listCount-1]` and each press moves it by the saturating step
(`min (i+1) (listCount-1)` for `j`, `i - 1` truncated at 0 for `k`,
never wrapping); in TaskFocus, `task_index` stays within
`[0, tasks[list_index].length - 1]` with the analogous saturating
steps. -/
theorem c3_jk_saturating_bounds (s : AppState) (i : Nat)
    (hne : s.tasklists ≠ []) (hall : ∀ tl ∈ s.tasklists, tl.tasks ≠ [])
    (h1 : s.list_select = some i) (hi : i < s.tasklists.length) :
    (s.task_select = none →
      (∀ ks : List JK, ∃ s' i',
          runEvents s (jkEvents ks) = some (s', false) ∧
          s'.tasklists = s.tasklists ∧ s'.task_select = none ∧
          s'.list_select = some i' ∧ i' < s.tasklists.length) ∧
      (∃ s₂, loopStep s (.input (key 'j')) = some (s₂, false) ∧
          s₂.list_select = some (min (i + 1) (s.tasklists.length - 1))) ∧
      (∃ s₂, loopStep s (.input (key 'k')) = some (s₂, false) ∧
          s₂.list_select = some (i - 1))) ∧
    (∀ (t : Nat) (tl : TaskList), s.task_select = some t →
        s.tasklists.get? i = some tl → t ≤ tl.tasks.length - 1 →
      (∀ ks : List JK, ∃ s' t',
          runEvents s (jkEvents ks) = some (s', false) ∧
          s'.tasklists = s.tasklists ∧ s'.list_select = some i ∧
          s'.task_select = some t' ∧ t' ≤ tl.tasks.length - 1) ∧
      (∃ s₂, loopStep s (.input (key 'j')) = some (s₂, false) ∧
          s₂.task_select = some (min (t + 1) (tl.tasks.length - 1))) ∧
      (∃ s₂, loopStep s (.input (key 'k')) = some (s₂, false) ∧
          s₂.task_select = some (t - 1))) := by
  constructor
  · intro h0
    refine ⟨fun ks => runJK_listFocus ks s i h0 h1 hi, ?_, ?_⟩
    · have h2 : s.tasklists.get? i = some (s.tasklists.get ⟨i, hi⟩) :=
        List.get?_eq_get hi
      have hmin : (if i ≠ s.tasklists.length - 1 then i + 1 else i) =
          min (i + 1) (s.tasklists.length - 1) := by
        split <;> omega
      refine ⟨{ s with
          task_len := (s.tasklists.get ⟨i, hi⟩).tasks.length - 1,
          list_select := some (min (i + 1) (s.tasklists.length - 1)) },
        ?_, rfl⟩
      rw [← hmin]
      exact loopStep_listFocus_jk s i _ JK.j h0 h1 h2
    · have h2 : s.tasklists.get? i = some (s.tasklists.get ⟨i, hi⟩) :=
        List.get?_eq_get hi
      have hsub : (if i ≠ 0 then i - 1 else i) = i - 1 := by
        split <;> omega
      refine ⟨{ s with
          task_len := (s.tasklists.get ⟨i, hi⟩).tasks.length - 1,
          list_select := some (i - 1) }, ?_, rfl⟩
      rw [← hsub]
      exact loopStep_listFocus_jk s i _ JK.k h0 h1 h2
  · intro t tl h0 h2 htle
    refine ⟨fun ks => runJK_taskFocus ks s i t tl h0 h1 h2 htle, ?_, ?_⟩
    · have hmin : (if t ≠ tl.tasks.length - 1 then t + 1 else t) =
          min (t + 1) (tl.tasks.length - 1) := by
        split <;> omega
      refine ⟨{ s with
          task_len := tl.tasks.length - 1,
          task_select := some (min (t + 1) (tl.tasks.length - 1)) },
        ?_, rfl⟩
      rw [← hmin]
      exact loopStep_taskFocus_jk s i t tl JK.j h0 h1 h2
    · have hsub : (if t ≠ 0 then t - 1 else t) = t - 1 := by
        split <;> omega
      refine ⟨{ s with
          task_len := tl.tasks.length - 1,
          task_select := some (t - 1) }, ?_, rfl⟩
      rw [← hsub]
      exact loopStep_taskFocus_jk s i t tl JK.k h0 h1 h2

/-- C3 (witness): at the two-list demo collection in ListFocus at list 0,
a `j` press moves the list selection to `min 1 (listCount - 1)`. -/
theorem c3_jk_saturating_bounds_witness :
    ∃ s₂, loopStep ⟨demoLists, some 0, none, 1⟩ (.input (key 'j')) =
        some (s₂, false) ∧
      s₂.list_select = some (min (0 + 1) (demoLists.length - 1)) :=
  (((c3_jk_saturating_bounds ⟨demoLists, some 0, none, 1⟩ 0 (by decide)
      (by decide) rfl (by decide)).1 rfl).2).1

/-- C6: from any ListFocus state with an in-range selection, `l` then
`h` returns to ListFocus with the same `list_index` (the state differs
only in the recomputed `task_len` cache), and a subsequent `l` sets
`task_index` back to 0. -/
theorem c6_l_h_round_trip (s : AppState) (i : Nat) (tl : TaskList)
    (h0 : s.task_select = none) (h1 : s.list_select = some i)
    (h2 : s.tasklists.get? i = some tl) :
    runEvents s [.input (key 'l'), .input (key 'h')] =
      some ({ s with task_len := tl.tasks.length - 1 }, false) ∧
    runEvents s [.input (key 'l'), .input (key 'h'), .input (key 'l')] =
      some ({ s with task_len := tl.tasks.length - 1,
                     task_select := some 0 }, false) := by
  obtain ⟨tls, ls, ts, tlen⟩ := s
  have h0' : ts = none := h0
  have h1' : ls = some i := h1
  subst h0' h1'
  have h2' : tls[i]? = some tl := by
    rwa [List.get?_eq_getElem?] at h2
  constructor <;>
    simp [runEvents, loopStep, drawUpdate, handleInput, key, h2']

/-- C6 (witness): the round trip at the demo collection. -/
theorem c6_l_h_round_trip_witness :
    runEvents ⟨demoLists, some 0, none, 1⟩
        [.input (key 'l'), .input (key 'h'), .input (key 'l')] =
      some (⟨demoLists, some 0, some 0, 1⟩, false) :=
  (c6_l_h_round_trip ⟨demoLists, some 0, none, 1⟩ 0
      { id := 0, name := "A", tasks := [mkTask 0, mkTask 1] }
      rfl rfl rfl).2

/-- C7: consuming a `Tick` event leaves `list_index`, `task_index` and
the whole task-list collection unchanged (only the cached `task_len` is
recomputed by the draw). -/
theorem c7_tick_frame (s : AppState) (i : Nat) (tl : TaskList)
    (h1 : s.list_select = some i) (h2 : s.tasklists.get? i = some tl) :
    ∃ s', loopStep s Event.tick = some (s', false) ∧
      s'.list_select = s.list_select ∧ s'.task_select = s.task_select ∧
      s'.tasklists = s.tasklists :=
  ⟨{ s with task_len := tl.tasks.length - 1 },
    by simp [loopStep, drawUpdate_eq s i tl h1 h2], rfl, rfl, rfl⟩

/-- C7 (witness): a `Tick` at the demo collection changes no selection. -/
theorem c7_tick_frame_witness :
    ∃ s', loopStep ⟨demoLists, some 0, none, 1⟩ Event.tick =
        some (s', false) ∧
      s'.list_select = (⟨demoLists, some 0, none, 1⟩ : AppState).list_select ∧
      s'.task_select = (⟨demoLists, some 0, none, 1⟩ : AppState).task_select ∧
      s'.tasklists = (⟨demoLists, some 0, none, 1⟩ : AppState).tasklists :=
  c7_tick_frame ⟨demoLists, some 0, none, 1⟩ 0
    { id := 0, name := "A", tasks := [mkTask 0, mkTask 1] } rfl rfl

/-- C9: under the precondition that the collection is non-empty and every
task list is non-empty, the `len() - 1` computations of the main loop act
on positive lengths (no `usize` underflow): `tasklists.len() ≥ 1`,
every `tasks.len() ≥ 1` (covering `tasklists[0]` at startup and
`tasklists[selected_list]` in the draw closure), and `initState` and
`drawUpdate` succeed; without the precondition, pressing `l` on an empty
selected list still sets `task_index` to `Some(0)`. -/
theorem c9_underflow_guard (tls : List TaskList)
    (hne : tls ≠ []) (hall : ∀ tl ∈ tls, tl.tasks ≠ []) :
    (1 ≤ tls.length ∧ ∀ tl ∈ tls, 1 ≤ tl.tasks.length) ∧
    (∃ tl0, tls.get? 0 = some tl0 ∧
        initState tls = some ⟨tls, some 0, none, tl0.tasks.length - 1⟩) ∧
    (∀ (s : AppState) (i : Nat) (tl : TaskList), s.tasklists = tls →
        s.list_select = some i → tls.get? i = some tl →
        drawUpdate s = some { s with task_len := tl.tasks.length - 1 } ∧
        1 ≤ tl.tasks.length) ∧
    (∀ (s : AppState) (i : Nat) (tl : TaskList),
        s.task_select = none → s.list_select = some i →
        s.tasklists.get? i = some tl → tl.tasks = [] →
        ∃ s₂, loopStep s (.input (key 'l')) = some (s₂, false) ∧
          s₂.task_select = some 0) := by
  refine ⟨⟨?_, ?_⟩, ?_, ?_, ?_⟩
  · exact List.length_pos.mpr hne
  · exact fun tl htl => List.length_pos.mpr (hall tl htl)
  · rcases tls with _ | ⟨a, l⟩
    · exact absurd rfl hne
    · exact ⟨a, rfl, rfl⟩
  · intro s i tl hs hl hg
    refine ⟨drawUpdate_eq s i tl hl (hs ▸ hg), ?_⟩
    exact List.length_pos.mpr (hall tl (List.get?_mem hg))
  · intro s i tl h0 h1 h2 _
    exact ⟨_, loopStep_listFocus_l s i tl h0 h1 h2, rfl⟩

/-- C9 (witness): at the demo collection the lengths are positive. -/
theorem c9_underflow_guard_witness :
    1 ≤ demoLists.length ∧ ∀ tl ∈ demoLists, 1 ≤ tl.tasks.length :=
  (c9_underflow_guard demoLists (by decide) (by decide)).1

/-- C10: the dispatch inspects only the key code: two key events with the
same code but different modifier flags produce the same loop step (same
cursor update and same quit decision), and `q` with any modifier
combination sets the break flag. -/
theorem c10_modifier_indifference (s : AppState) (list_len : Nat)
    (c : KeyCode) (m1 m2 : KeyModifiers) :
    loopStep s (.input ⟨c, m1⟩) = loopStep s (.input ⟨c, m2⟩) ∧
    handleInput list_len s ⟨c, m1⟩ = handleInput list_len s ⟨c, m2⟩ ∧
    (handleInput list_len s ⟨.char 'q', m1⟩).2 = true := by
  refine ⟨rfl, rfl, ?_⟩
  obtain ⟨tls, ls, ts, tlen⟩ := s
  cases ts <;> rfl

end Tbg
